import Mathlib

/-!
Shallow embedding of the bookcase-configurator core
(src/unnamed/part_001 `BookcaseViewer`/`createBookcase`,
src/src/app/components/Bookcase.tsx, src/src/app/components/ConfigPanel.tsx).

Coordinates are rationals (the source manipulates JS numbers with the
exact literals 0.5, 1.5, 0.3, ... which are all dyadic); loop counters and
grid indices are naturals.
-/

namespace Bookcase

/-- Drawer fill kind, `'solid' | 'glass'` in `DrawerConfig` (Bookcase.tsx). -/
inductive DrawerType
  | solid
  | glass
deriving DecidableEq, Repr

/-- `DrawerConfig` record (Bookcase.tsx lines 12-16): row 0 = bottom,
column 0 = left. -/
structure Drawer where
  row : ℕ
  column : ℕ
  type : DrawerType
deriving DecidableEq, Repr

/-- `BookcaseConfig` (Bookcase.tsx lines 1-10); `color` is cosmetic and not
read by any layout/interaction code path modelled here, so it is omitted. -/
structure Config where
  width : ℚ
  height : ℚ
  depth : ℚ
  shelves : ℕ
  divisions : ℕ
  thickness : ℚ
  drawers : List Drawer
deriving DecidableEq, Repr

/-- The predicate `d => d.row === row && d.column === column` used by
`findIndex`/`find` in `handleCompartmentClick` and `ConfigPanel`. -/
def drawerMatches (row col : ℕ) (d : Drawer) : Bool :=
  d.row == row && d.column == col

/-- `drawers.findIndex(d => d.row === row && d.column === column)`
(part_001 line 274), with the JS sentinel `-1` rendered as `none`. -/
def findDrawer (drawers : List Drawer) (row col : ℕ) : Option ℕ :=
  match drawers with
  | [] => none
  | d :: rest =>
      if drawerMatches row col d then some 0
      else (findDrawer rest row col).map (· + 1)

/-- `drawers.map((d, i) => i === drawerIndex ? { ...d, type: 'glass' } : d)`
(part_001 lines 285-287): replace the type at one index, keep row/column. -/
def setGlassAt : List Drawer → ℕ → List Drawer
  | [], _ => []
  | d :: rest, 0 => ⟨d.row, d.column, DrawerType.glass⟩ :: rest
  | d :: rest, n + 1 => d :: setGlassAt rest n

/-- `drawers.filter((_, i) => i !== drawerIndex)` (part_001 line 290):
drop the entry at one index. -/
def removeAt : List Drawer → ℕ → List Drawer
  | [], _ => []
  | _ :: rest, 0 => rest
  | d :: rest, n + 1 => d :: removeAt rest n

/-- `handleCompartmentClick` (part_001 lines 270-298), restricted to its
effect on the `drawers` array: existing solid drawer becomes glass,
existing glass drawer is removed, otherwise a solid drawer is appended. -/
def handleCompartmentClick (drawers : List Drawer) (row col : ℕ) : List Drawer :=
  match findDrawer drawers row col with
  | some i =>
      match drawers[i]? with
      | some d =>
          if d.type = DrawerType.solid then setGlassAt drawers i
          else removeAt drawers i
      | none => drawers
  | none => drawers ++ [⟨row, col, DrawerType.solid⟩]

/-- The drawer currently occupying compartment `(row, col)`: first entry of
`drawers` matching on row and column (the lookup all source paths use). -/
def drawerAt (drawers : List Drawer) (row col : ℕ) : Option Drawer :=
  drawers.find? (drawerMatches row col)

lemma findDrawer_of_no_match {L : List Drawer} {r c : ℕ}
    (h : ∀ d ∈ L, drawerMatches r c d = false) :
    findDrawer L r c = none := by
  induction L with
  | nil => rfl
  | cons d rest ih =>
      have hd := h d (List.mem_cons_self d rest)
      have hrest : ∀ d ∈ rest, drawerMatches r c d = false :=
        fun d hm => h d (List.mem_cons_of_mem _ hm)
      simp [findDrawer, hd, ih hrest]

lemma findDrawer_append_single {L : List Drawer} {r c : ℕ} (x : Drawer)
    (h : ∀ d ∈ L, drawerMatches r c d = false) :
    findDrawer (L ++ [x]) r c =
      if drawerMatches r c x then some L.length else none := by
  induction L with
  | nil => by_cases hx : drawerMatches r c x <;> simp [findDrawer, hx]
  | cons d rest ih =>
      have hd := h d (List.mem_cons_self d rest)
      have hrest : ∀ d ∈ rest, drawerMatches r c d = false :=
        fun d hm => h d (List.mem_cons_of_mem _ hm)
      by_cases hx : drawerMatches r c x <;>
        simp [findDrawer, hd, ih hrest, hx]

lemma getElem?_append_single (L : List Drawer) (x : Drawer) :
    (L ++ [x])[L.length]? = some x := by
  induction L with
  | nil => rfl
  | cons d rest ih => simp [ih]

lemma setGlassAt_append_single (L : List Drawer) (x : Drawer) :
    setGlassAt (L ++ [x]) L.length = L ++ [⟨x.row, x.column, DrawerType.glass⟩] := by
  induction L with
  | nil => rfl
  | cons d rest ih => simp [setGlassAt, ih]

lemma removeAt_append_single (L : List Drawer) (x : Drawer) :
    removeAt (L ++ [x]) L.length = L := by
  induction L with
  | nil => rfl
  | cons d rest ih => simp [removeAt, ih]

lemma drawerAt_of_no_match {L : List Drawer} {r c : ℕ}
    (h : ∀ d ∈ L, drawerMatches r c d = false) :
    drawerAt L r c = none := by
  simp only [drawerAt, List.find?_eq_none]
  intro d hd
  simp [h d hd]

lemma drawerAt_append_single {L : List Drawer} {r c : ℕ} (x : Drawer)
    (h : ∀ d ∈ L, drawerMatches r c d = false) :
    drawerAt (L ++ [x]) r c = if drawerMatches r c x then some x else none := by
  induction L with
  | nil => by_cases hx : drawerMatches r c x <;> simp [drawerAt, List.find?, hx]
  | cons d rest ih =>
      have hd := h d (List.mem_cons_self d rest)
      have hrest : ∀ d ∈ rest, drawerMatches r c d = false :=
        fun d hm => h d (List.mem_cons_of_mem _ hm)
      simpa [drawerAt, List.find?, hd] using ih hrest

lemma drawerMatches_self (r c : ℕ) (t : DrawerType) :
    drawerMatches r c ⟨r, c, t⟩ = true := by
  simp [drawerMatches]

/-- C1. For a compartment `(r, c)` of the grid holding no drawer, presses
resolved to its hit-region cycle absent → Solid → Glass → absent: the first
press appends a Solid drawer, the second turns it to Glass, the third
removes it (restoring the original drawers array exactly), and a fourth
press repeats the cycle. -/
theorem click_cycle (cfg : Config) (L : List Drawer) (r c : ℕ)
    (_hr : r ≤ cfg.shelves) (_hc : c ≤ cfg.divisions)
    (habs : ∀ d ∈ L, drawerMatches r c d = false) :
    drawerAt L r c = none ∧
    handleCompartmentClick L r c = L ++ [⟨r, c, DrawerType.solid⟩] ∧
    drawerAt (handleCompartmentClick L r c) r c = some ⟨r, c, DrawerType.solid⟩ ∧
    handleCompartmentClick (handleCompartmentClick L r c) r c
      = L ++ [⟨r, c, DrawerType.glass⟩] ∧
    drawerAt (handleCompartmentClick (handleCompartmentClick L r c) r c) r c
      = some ⟨r, c, DrawerType.glass⟩ ∧
    handleCompartmentClick
      (handleCompartmentClick (handleCompartmentClick L r c) r c) r c = L ∧
    handleCompartmentClick
      (handleCompartmentClick
        (handleCompartmentClick (handleCompartmentClick L r c) r c) r c) r c
      = L ++ [⟨r, c, DrawerType.solid⟩] := by
  have h0 : drawerAt L r c = none := drawerAt_of_no_match habs
  have h1 : handleCompartmentClick L r c = L ++ [⟨r, c, DrawerType.solid⟩] := by
    simp [handleCompartmentClick, findDrawer_of_no_match habs]
  have hfind_s : findDrawer (L ++ [⟨r, c, DrawerType.solid⟩]) r c = some L.length := by
    rw [findDrawer_append_single _ habs, drawerMatches_self]
    simp
  have h2 : handleCompartmentClick (L ++ [⟨r, c, DrawerType.solid⟩]) r c
      = L ++ [⟨r, c, DrawerType.glass⟩] := by
    rw [handleCompartmentClick, hfind_s]
    simp [getElem?_append_single L ⟨r, c, DrawerType.solid⟩,
      setGlassAt_append_single L ⟨r, c, DrawerType.solid⟩]
  have hfind_g : findDrawer (L ++ [⟨r, c, DrawerType.glass⟩]) r c = some L.length := by
    rw [findDrawer_append_single _ habs, drawerMatches_self]
    simp
  have h3 : handleCompartmentClick (L ++ [⟨r, c, DrawerType.glass⟩]) r c = L := by
    rw [handleCompartmentClick, hfind_g]
    simp [getElem?_append_single L ⟨r, c, DrawerType.glass⟩,
      removeAt_append_single L ⟨r, c, DrawerType.glass⟩]
  refine ⟨h0, h1, ?_, ?_, ?_, ?_, ?_⟩
  · rw [h1, drawerAt_append_single _ habs, drawerMatches_self]
    simp
  · rw [h1, h2]
  · rw [h1, h2, drawerAt_append_single _ habs, drawerMatches_self]
    simp
  · rw [h1, h2, h3]
  · rw [h1, h2, h3, h1]

/-- The default configuration of the app (part_001, `defaultConfig`):
width 2.5, height 2.4, depth 0.4, 4 shelves, 2 divisions, thickness 0.04,
no drawers. -/
def defaultConfig : Config :=
  { width := 5/2, height := 12/5, depth := 2/5,
    shelves := 4, divisions := 2, thickness := 1/25, drawers := [] }

/-- Witness for `click_cycle` at the default configuration, compartment
(0,0), empty drawers array. -/
theorem click_cycle_witness :
    (0 ≤ defaultConfig.shelves ∧ 0 ≤ defaultConfig.divisions ∧
      (∀ d ∈ ([] : List Drawer), drawerMatches 0 0 d = false)) ∧
    handleCompartmentClick
      (handleCompartmentClick (handleCompartmentClick [] 0 0) 0 0) 0 0 = [] :=
  ⟨⟨Nat.zero_le _, Nat.zero_le _, by simp⟩,
    (click_cycle defaultConfig [] 0 0 (Nat.zero_le _) (Nat.zero_le _)
      (by simp)).2.2.2.2.2.1⟩

/-! ## Geometry builder (`createBookcase`, part_001 lines 615-789) -/

/-- Kind tag for an emitted solid primitive. -/
inductive PrimKind
  | panel
  | sidePanel
  | backPanel
  | shelf
  | division
  | drawerBox
  | handle
  | frame
deriving DecidableEq, Repr

/-- One emitted solid primitive: a box with size `(w, h, d)` at centre
`(x, y, z)`; a cylinder (drawer handle) is encoded with its radius in `w`,
its length in `h` and `d = 0`. -/
structure Prim where
  kind : PrimKind
  w : ℚ
  h : ℚ
  d : ℚ
  x : ℚ
  y : ℚ
  z : ℚ
deriving DecidableEq, Repr

/-- `usableHeight / (shelves + 1)` — both the shelf spacing (line 673) and
the compartment height (line 693) in `createBookcase`. -/
def compartmentHeight (cfg : Config) : ℚ :=
  (cfg.height - cfg.thickness * 2) / ((cfg.shelves : ℚ) + 1)

/-- `usableWidth / (divisions + 1)` — both the division spacing (line 683)
and the compartment width (line 694) in `createBookcase`. -/
def compartmentWidth (cfg : Config) : ℚ :=
  (cfg.width - cfg.thickness * 2) / ((cfg.divisions : ℚ) + 1)

/-- The structural solids of `createBookcase` (lines 655-688): bottom and
top panels, the two sides, the back panel, then one box per shelf
`i = 1..shelves` and one per division `i = 1..divisions` (the `if` guards
in the source only skip loops that would be empty anyway). -/
def structuralPrims (cfg : Config) : List Prim :=
  [⟨PrimKind.panel, cfg.width, cfg.thickness, cfg.depth, 0, cfg.thickness / 2, 0⟩,
   ⟨PrimKind.panel, cfg.width, cfg.thickness, cfg.depth, 0,
     cfg.height - cfg.thickness / 2, 0⟩,
   ⟨PrimKind.sidePanel, cfg.thickness, cfg.height, cfg.depth,
     -cfg.width / 2 + cfg.thickness / 2, cfg.height / 2, 0⟩,
   ⟨PrimKind.sidePanel, cfg.thickness, cfg.height, cfg.depth,
     cfg.width / 2 - cfg.thickness / 2, cfg.height / 2, 0⟩,
   ⟨PrimKind.backPanel, cfg.width - cfg.thickness * 2,
     cfg.height - cfg.thickness * 2, cfg.thickness / 2, 0, cfg.height / 2,
     -cfg.depth / 2 + cfg.thickness / 4⟩]
  ++ (List.range cfg.shelves).map (fun i : ℕ =>
       ⟨PrimKind.shelf, cfg.width - cfg.thickness * 2, cfg.thickness, cfg.depth,
         0, cfg.thickness + compartmentHeight cfg * ((i : ℚ) + 1), 0⟩)
  ++ (List.range cfg.divisions).map (fun i : ℕ =>
       ⟨PrimKind.division, cfg.thickness, cfg.height - cfg.thickness * 2, cfg.depth,
         -cfg.width / 2 + cfg.thickness + compartmentWidth cfg * ((i : ℚ) + 1),
         cfg.height / 2, 0⟩)

/-- The primitives `createBookcase` emits for one entry of `config.drawers`
(lines 719-784): a drawer box, then a cylindrical handle for a solid drawer
or four frame strips plus a thinner handle for a glass one. There is no
range check on `row`/`column` anywhere in this code path. -/
def drawerPrimsFor (cfg : Config) (dr : Drawer) : List Prim :=
  let cw := compartmentWidth cfg
  let ch := compartmentHeight cfg
  let dX := -cfg.width / 2 + cfg.thickness + cw * ((dr.column : ℚ) + 1/2)
  let dY := cfg.thickness + ch * ((dr.row : ℚ) + 1/2)
  let dZ := cfg.depth / 4
  let dw := cw - cfg.thickness * (3/2)
  let dh := ch - cfg.thickness * (3/2)
  let box : Prim := ⟨PrimKind.drawerBox, dw, dh, cfg.thickness * (3/2), dX, dY, dZ⟩
  match dr.type with
  | DrawerType.solid =>
      [box,
       ⟨PrimKind.handle, cfg.thickness / 2, dw / 5, 0, dX, dY, dZ + cfg.thickness⟩]
  | DrawerType.glass =>
      [box,
       ⟨PrimKind.frame, dw, cfg.thickness * (3/10), cfg.thickness * (3/2),
         dX, dY + dh / 2, dZ⟩,
       ⟨PrimKind.frame, dw, cfg.thickness * (3/10), cfg.thickness * (3/2),
         dX, dY - dh / 2, dZ⟩,
       ⟨PrimKind.frame, cfg.thickness * (3/10), dh, cfg.thickness * (3/2),
         dX - dw / 2, dY, dZ⟩,
       ⟨PrimKind.frame, cfg.thickness * (3/10), dh, cfg.thickness * (3/2),
         dX + dw / 2, dY, dZ⟩,
       ⟨PrimKind.handle, cfg.thickness * (3/10), dw * (3/20), 0,
         dX, dY, dZ + cfg.thickness⟩]

/-- `drawers.forEach(...)` (lines 718-785): the drawer primitives of every
entry, in array order. -/
def drawerPrims (cfg : Config) : List Prim :=
  cfg.drawers.flatMap (drawerPrimsFor cfg)

/-- Everything `createBookcase` adds to the `bookcase` group. -/
def buildSolids (cfg : Config) : List Prim :=
  structuralPrims cfg ++ drawerPrims cfg

/-- One invisible compartment hit-region (lines 702-715): a plane tagged
`userData = { row, column }`, fully transparent (`opacity: 0`). `geomId`
and `matId` model graphics-resource identity: the source allocates a fresh
`PlaneGeometry` per compartment (distinct row-major ids, starting at 1) but
builds every compartment mesh from the single shared `compartmentMaterial`
(id 0). -/
structure HitRegion where
  row : ℕ
  column : ℕ
  w : ℚ
  h : ℚ
  x : ℚ
  y : ℚ
  z : ℚ
  opacity : ℚ
  geomId : ℕ
  matId : ℕ
deriving DecidableEq, Repr

/-- The shared `compartmentMaterial` resource (created once per build,
line 696, referenced by every compartment mesh). -/
def sharedCompartmentMatId : ℕ := 0

/-- The hit-region for compartment `(row, col)` (lines 704-712). -/
def hitRegionFor (cfg : Config) (row col : ℕ) : HitRegion :=
  { row := row
    column := col
    w := compartmentWidth cfg - cfg.thickness * 2
    h := compartmentHeight cfg - cfg.thickness * 2
    x := -cfg.width / 2 + cfg.thickness + compartmentWidth cfg * ((col : ℚ) + 1/2)
    y := cfg.thickness + compartmentHeight cfg * ((row : ℚ) + 1/2)
    z := cfg.depth / 3
    opacity := 0
    geomId := row * (cfg.divisions + 1) + col + 1
    matId := sharedCompartmentMatId }

/-- The nested loops `for row = 0..shelves, for col = 0..divisions`
(lines 702-715) populating the `compartments` group. -/
def hitRegions (cfg : Config) : List HitRegion :=
  (List.range (cfg.shelves + 1)).flatMap (fun row =>
    (List.range (cfg.divisions + 1)).map (fun col => hitRegionFor cfg row col))

lemma flatMap_range_length_const {α : Type} (m k : ℕ) (f : ℕ → List α)
    (hf : ∀ a, (f a).length = k) :
    ((List.range m).flatMap f).length = m * k := by
  induction m with
  | zero => simp
  | succ m ih =>
      rw [List.range_succ, List.flatMap_append, List.length_append, ih]
      simp [hf, Nat.succ_mul]

lemma hitRegions_length (cfg : Config) :
    (hitRegions cfg).length = (cfg.shelves + 1) * (cfg.divisions + 1) := by
  rw [hitRegions]
  exact flatMap_range_length_const _ _ _ (fun a => by simp)

lemma hitRegions_mem (cfg : Config) {hr : HitRegion} (h : hr ∈ hitRegions cfg) :
    ∃ r c, r ≤ cfg.shelves ∧ c ≤ cfg.divisions ∧ hr = hitRegionFor cfg r c := by
  simp only [hitRegions, List.mem_flatMap, List.mem_map, List.mem_range] at h
  rcases h with ⟨row, hrow, col, hcol, rfl⟩
  exact ⟨row, col, Nat.lt_succ_iff.mp hrow, Nat.lt_succ_iff.mp hcol, rfl⟩

lemma filter_beq_range {n c : ℕ} (hc : c < n) :
    (List.range n).filter (fun b => b == c) = [c] := by
  induction n with
  | zero => omega
  | succ n ih =>
      rw [List.range_succ, List.filter_append]
      by_cases h : c < n
      · rw [ih h]
        have : List.filter (fun b => b == c) [n] = [] := by
          simp
          omega
        rw [this, List.append_nil]
      · have hcn : c = n := by omega
        subst hcn
        have h0 : List.filter (fun b => b == c) (List.range c) = [] := by
          rw [List.filter_eq_nil_iff]
          intro a ha
          have := List.mem_range.mp ha
          simp
          omega
        rw [h0]
        simp

/-- In the row-major grid traversal, filtering on the tag `(r, c)` keeps
exactly the one element built for `(r, c)`. -/
lemma filter_grid_flatMap {α : Type} (f : ℕ → ℕ → α) (row? col? : α → ℕ)
    (hrow : ∀ a b, row? (f a b) = a) (hcol : ∀ a b, col? (f a b) = b)
    {m n r c : ℕ} (hr : r < m) (hc : c < n) :
    (((List.range m).flatMap (fun a => (List.range n).map (f a))).filter
      (fun x => row? x == r && col? x == c)) = [f r c] := by
  induction m with
  | zero => omega
  | succ m ih =>
      rw [List.range_succ, List.flatMap_append, List.filter_append]
      have hlast : (((List.range n).map (f m)).filter
          (fun x => row? x == r && col? x == c))
          = if m = r then [f r c] else [] := by
        rw [List.filter_map]
        by_cases hm : m = r
        · subst hm
          have hpred : ((fun x => row? x == m && col? x == c) ∘ f m)
              = fun b => b == c := by
            funext b
            simp [Function.comp, hrow, hcol]
          rw [hpred, filter_beq_range hc]
          simp
        · have hpred : ∀ b ∈ List.range n,
              ¬ (((fun x => row? x == r && col? x == c) ∘ f m) b = true) := by
            intro b _
            simp [Function.comp, hrow, hcol, hm]
          rw [List.filter_eq_nil_iff.mpr hpred]
          simp [hm]
      have hflat : ([m].flatMap (fun a => (List.range n).map (f a)))
          = (List.range n).map (f m) := by
        simp
      rw [hflat, hlast]
      by_cases hm : m = r
      · subst hm
        have h0 : (((List.range m).flatMap (fun a => (List.range n).map (f a))).filter
            (fun x => row? x == m && col? x == c)) = [] := by
          rw [List.filter_eq_nil_iff]
          intro x hx
          simp only [List.mem_flatMap, List.mem_map, List.mem_range] at hx
          rcases hx with ⟨a, ha, b, _, rfl⟩
          simp [hrow, hcol]
          omega
        rw [h0]
        simp
      · have hr' : r < m := by omega
        rw [ih hr']
        simp [hm]

lemma hitRegions_filter_tag (cfg : Config) {r c : ℕ}
    (hrle : r ≤ cfg.shelves) (hcle : c ≤ cfg.divisions) :
    (hitRegions cfg).filter (fun hr => hr.row == r && hr.column == c)
      = [hitRegionFor cfg r c] := by
  rw [hitRegions]
  exact filter_grid_flatMap (hitRegionFor cfg) HitRegion.row HitRegion.column
    (fun a b => rfl) (fun a b => rfl)
    (Nat.lt_succ_of_le hrle) (Nat.lt_succ_of_le hcle)

/-- C2. Every configuration yields exactly `(shelves+1) × (divisions+1)`
invisible (opacity-0) hit-region primitives, each tagged with a `(row,
column)` satisfying `row ≤ shelves` and `column ≤ divisions`, and each
in-range `(row, column)` tags exactly one of them. -/
theorem hit_region_grid (cfg : Config) :
    (hitRegions cfg).length = (cfg.shelves + 1) * (cfg.divisions + 1) ∧
    (∀ hr ∈ hitRegions cfg,
      hr.row ≤ cfg.shelves ∧ hr.column ≤ cfg.divisions ∧ hr.opacity = 0) ∧
    (∀ r c, r ≤ cfg.shelves → c ≤ cfg.divisions →
      ((hitRegions cfg).filter
        (fun hr => hr.row == r && hr.column == c)).length = 1) := by
  refine ⟨hitRegions_length cfg, ?_, ?_⟩
  · intro hr hmem
    rcases hitRegions_mem cfg hmem with ⟨r, c, hrle, hcle, rfl⟩
    exact ⟨hrle, hcle, rfl⟩
  · intro r c hrle hcle
    rw [hitRegions_filter_tag cfg hrle hcle]
    rfl

/-- Witness for `hit_region_grid` at the default configuration (5×3 grid),
compartment (0,0). -/
theorem hit_region_grid_witness :
    (0 ≤ defaultConfig.shelves ∧ 0 ≤ defaultConfig.divisions) ∧
    ((hitRegions defaultConfig).filter
      (fun hr => hr.row == 0 && hr.column == 0)).length = 1 :=
  ⟨⟨Nat.zero_le _, Nat.zero_le _⟩,
    (hit_region_grid defaultConfig).2.2 0 0 (Nat.zero_le _) (Nat.zero_le _)⟩

/-! ## Out-of-range drawer entries (claim C3) -/

/-- A 1-compartment configuration (shelves = 0, divisions = 0) whose single
drawer entry references compartment (5, 5), far outside the 1×1 grid. -/
def oobConfig : Config :=
  { width := 1, height := 1, depth := 2/5,
    shelves := 0, divisions := 0, thickness := 1/25,
    drawers := [⟨5, 5, DrawerType.solid⟩] }

/-- C3 counterexample. `createBookcase` has no range check on drawer
entries: for the out-of-range entry (5, 5) of `oobConfig` it still emits
its full primitive group (drawer box plus handle, 2 primitives), not zero
as the claim's skip policy would demand. -/
theorem oob_drawer_not_skipped :
    oobConfig.shelves < 5 ∧ oobConfig.divisions < 5 ∧
      (drawerPrims oobConfig).length = 2 := by
  refine ⟨by decide, by decide, ?_⟩
  rfl

/-- C3 amended. An out-of-range drawer entry never crashes the build
(every build function is total) and leaves the structural geometry, the
hit-region grid and all other drawer entries unaffected, but it is NOT
skipped: the builder emits its full primitive group (2 primitives for a
solid drawer, 6 for a glass one) at coordinates extrapolated from the
compartment-grid formulas. -/
theorem oob_drawer_amended (cfg : Config) (L1 L2 : List Drawer) (d : Drawer)
    (h : cfg.drawers = L1 ++ d :: L2) :
    structuralPrims cfg = structuralPrims { cfg with drawers := [] } ∧
    hitRegions cfg = hitRegions { cfg with drawers := [] } ∧
    drawerPrims cfg =
      drawerPrims { cfg with drawers := L1 } ++ drawerPrimsFor cfg d
        ++ drawerPrims { cfg with drawers := L2 } ∧
    (drawerPrimsFor cfg d).length
      = if d.type = DrawerType.solid then 2 else 6 := by
  refine ⟨rfl, rfl, ?_, ?_⟩
  · have hirr : ∀ L : List Drawer,
        drawerPrimsFor { cfg with drawers := L } = drawerPrimsFor cfg :=
      fun L => funext (fun _ => rfl)
    simp only [drawerPrims, h, List.flatMap_append, List.flatMap_cons, hirr,
      List.append_assoc]
  · rcases d with ⟨dr, dc, dt⟩
    cases dt <;> simp [drawerPrimsFor]

/-- Witness for `oob_drawer_amended` at `oobConfig`. -/
theorem oob_drawer_amended_witness :
    oobConfig.drawers = [] ++ (⟨5, 5, DrawerType.solid⟩ : Drawer) :: [] ∧
    (drawerPrimsFor oobConfig ⟨5, 5, DrawerType.solid⟩).length
      = if (DrawerType.solid : DrawerType) = DrawerType.solid then 2 else 6 :=
  ⟨rfl, by
    simpa using
      (oob_drawer_amended oobConfig [] [] ⟨5, 5, DrawerType.solid⟩ rfl).2.2.2⟩

/-! ## Scene synchronizer and pointer interaction
(part_001: rebuild effect lines 350-404, mouse handlers lines 172-268) -/

/-- A Three.js `Vector3` position. -/
structure Pos3 where
  x : ℚ
  y : ℚ
  z : ℚ
deriving DecidableEq, Repr

/-- The mutable state the viewer keeps in `sceneRef`: the `bookcase`
group's children and position, the `compartments` group's children and
position, and the drag state. -/
structure ViewerState where
  solids : List Prim
  hits : List HitRegion
  bookcasePos : Pos3
  compartmentsPos : Pos3
  isDragging : Bool
  dragOffset : Pos3
deriving DecidableEq, Repr

/-- Scene state right after initialization (lines 127-167): empty groups
at the origin, not dragging. -/
def initState : ViewerState :=
  { solids := [], hits := [], bookcasePos := ⟨0, 0, 0⟩,
    compartmentsPos := ⟨0, 0, 0⟩, isDragging := false, dragOffset := ⟨0, 0, 0⟩ }

/-- Lines 390-395: restore the captured position when it was moved
(`x !== 0 || z !== 0`), otherwise place the bookcase flush against the
back wall at `(0, 0, -5 + depth/2 + 0.05)`. -/
def rebuildPos (prior : Pos3) (cfg : Config) : Pos3 :=
  if prior.x ≠ 0 ∨ prior.z ≠ 0 then prior
  else ⟨0, 0, -5 + cfg.depth / 2 + 1/20⟩

/-- The config-change effect (lines 350-404): capture the current
position, clear both groups (disposing every child), rebuild both from the
new config, re-apply the captured position (or the default placement), and
copy the bookcase position onto the compartments group. -/
def sync (s : ViewerState) (cfg : Config) : ViewerState :=
  let p := rebuildPos s.bookcasePos cfg
  { s with
    solids := buildSolids cfg
    hits := hitRegions cfg
    bookcasePos := p
    compartmentsPos := p }

/-- `handleMouseDown` when the ray hits the bookcase (lines 245-257):
start dragging and record `dragOffset = intersectPoint - bookcase.position`
with the intersection point on the horizontal drag plane `y = 0`. -/
def mouseDownDrag (s : ViewerState) (intersect : ℚ × ℚ) : ViewerState :=
  { s with
    isDragging := true
    dragOffset := ⟨intersect.1 - s.bookcasePos.x, 0 - s.bookcasePos.y,
      intersect.2 - s.bookcasePos.z⟩ }

/-- `handleMouseMove` while dragging (lines 179-189): set the bookcase
group's x and z to `intersection - dragOffset`; y is untouched, and the
`compartments` group is NOT repositioned on this path. -/
def dragMove (s : ViewerState) (intersect : ℚ × ℚ) : ViewerState :=
  if s.isDragging then
    { s with bookcasePos :=
        ⟨intersect.1 - s.dragOffset.x, s.bookcasePos.y,
          intersect.2 - s.dragOffset.z⟩ }
  else s

/-- `handleMouseUp` (lines 260-268): stop dragging. -/
def mouseUp (s : ViewerState) : ViewerState :=
  { s with isDragging := false }

/-- C4 refutation. After a rebuild the two subtree roots coincide, but a
drag in progress moves only the bookcase group: one mouse-down on the
solid subtree at plane point (0,0) followed by one drag-move to (1,0)
leaves the compartments (hit-region) group at the old position, so the two
root transforms differ — the lockstep invariant the spec states is broken
by the drag path, which updates `bookcase.position` only. -/
theorem drag_breaks_lockstep :
    (sync initState defaultConfig).bookcasePos
        = (sync initState defaultConfig).compartmentsPos ∧
    (dragMove (mouseDownDrag (sync initState defaultConfig) (0, 0))
        (1, 0)).bookcasePos
      ≠ (dragMove (mouseDownDrag (sync initState defaultConfig) (0, 0))
        (1, 0)).compartmentsPos := by
  constructor
  · rfl
  · intro hcontra
    have hx : (dragMove (mouseDownDrag (sync initState defaultConfig) (0, 0))
        (1, 0)).bookcasePos.x
        = (dragMove (mouseDownDrag (sync initState defaultConfig) (0, 0))
        (1, 0)).compartmentsPos.x := by rw [hcontra]
    have h1 : (dragMove (mouseDownDrag (sync initState defaultConfig) (0, 0))
        (1, 0)).bookcasePos.x = 1 := by
      simp [dragMove, mouseDownDrag, sync, rebuildPos, initState]
    have h0 : (dragMove (mouseDownDrag (sync initState defaultConfig) (0, 0))
        (1, 0)).compartmentsPos.x = 0 := by
      simp [dragMove, mouseDownDrag, sync, rebuildPos, initState]
    rw [h1, h0] at hx
    exact one_ne_zero hx

/-- C5 counterexample. A drag that parks the bookcase exactly at
`x = 0, z = 0` is indistinguishable from "never moved" for the rebuild's
`x !== 0 || z !== 0` test: the next rebuild throws the drag-applied
translation away and resets the root to the default back-wall placement,
so that translation does not survive the rebuild. -/
theorem drag_to_origin_lost :
    (dragMove (mouseDownDrag (sync initState defaultConfig) (0, 0))
        (0, 19/4)).bookcasePos = ⟨0, 0, 0⟩ ∧
    (sync (dragMove (mouseDownDrag (sync initState defaultConfig) (0, 0))
        (0, 19/4)) defaultConfig).bookcasePos
      ≠ (dragMove (mouseDownDrag (sync initState defaultConfig) (0, 0))
        (0, 19/4)).bookcasePos := by
  constructor
  · simp [dragMove, mouseDownDrag, sync, rebuildPos, initState, defaultConfig]
    norm_num
  · intro hcontra
    have hz : (sync (dragMove (mouseDownDrag (sync initState defaultConfig) (0, 0))
        (0, 19/4)) defaultConfig).bookcasePos.z
        = (dragMove (mouseDownDrag (sync initState defaultConfig) (0, 0))
        (0, 19/4)).bookcasePos.z := by rw [hcontra]
    have h1 : (sync (dragMove (mouseDownDrag (sync initState defaultConfig) (0, 0))
        (0, 19/4)) defaultConfig).bookcasePos.z = -19/4 := by
      simp [dragMove, mouseDownDrag, sync, rebuildPos, initState, defaultConfig]
      norm_num
    have h0 : (dragMove (mouseDownDrag (sync initState defaultConfig) (0, 0))
        (0, 19/4)).bookcasePos.z = 0 := by
      simp [dragMove, mouseDownDrag, sync, rebuildPos, initState, defaultConfig]
      norm_num
    rw [h1, h0] at hz
    norm_num at hz

/-- C5 amended. The rebuild preserves the captured root position exactly
when that position has `x ≠ 0` or `z ≠ 0`; a captured position with
`x = 0` and `z = 0` — the never-dragged first build, but also a drag that
ended exactly at the origin — is (re)set to the default placement
`(0, 0, -5 + depth/2 + 0.05)` flush against the back wall; in particular
the first build from the initial state gets the default placement. -/
theorem rebuild_position_amended (prior : Pos3) (cfg : Config) :
    (prior.x ≠ 0 ∨ prior.z ≠ 0 → rebuildPos prior cfg = prior) ∧
    (prior.x = 0 ∧ prior.z = 0 →
      rebuildPos prior cfg = ⟨0, 0, -5 + cfg.depth / 2 + 1/20⟩) ∧
    (sync initState cfg).bookcasePos = ⟨0, 0, -5 + cfg.depth / 2 + 1/20⟩ ∧
    (sync initState cfg).compartmentsPos = (sync initState cfg).bookcasePos := by
  refine ⟨?_, ?_, ?_, rfl⟩
  · intro h
    simp [rebuildPos, h]
  · intro h
    simp [rebuildPos, h.1, h.2]
  · simp [sync, initState, rebuildPos]

/-- Witness for `rebuild_position_amended`: a root dragged to `x = 1` is
preserved by the rebuild. -/
theorem rebuild_position_amended_witness :
    ((1 : ℚ) ≠ 0 ∨ (0 : ℚ) ≠ 0) ∧
      rebuildPos ⟨1, 0, 0⟩ defaultConfig = ⟨1, 0, 0⟩ :=
  ⟨Or.inl one_ne_zero,
    (rebuild_position_amended ⟨1, 0, 0⟩ defaultConfig).1 (Or.inl one_ne_zero)⟩

/-- C6. Rebuild round-trip: syncing the live root with configuration A,
then B, then A again leaves exactly the children (hence counts and layout
positions) of a single sync with A from the clean initial root — each sync
first empties both groups, so repeated rebuilds accumulate nothing. -/
theorem sync_roundtrip (A B : Config) :
    (sync (sync (sync initState A) B) A).solids = (sync initState A).solids ∧
    (sync (sync (sync initState A) B) A).hits = (sync initState A).hits ∧
    (sync (sync (sync initState A) B) A).solids.length
      = (sync initState A).solids.length ∧
    (sync (sync (sync initState A) B) A).hits.length
      = (sync initState A).hits.length :=
  ⟨rfl, rfl, rfl, rfl⟩

/-! ## Teardown and resource disposal (claim C7) -/

/-- The teardown loop over the `compartments` group (lines 374-385): for
each child in order, dispose its geometry, then dispose its material. -/
def disposeLog : List HitRegion → List ℕ
  | [] => []
  | h :: rest => h.geomId :: h.matId :: disposeLog rest

/-- Number of occurrences of resource id `g` in a dispose log. -/
def countOcc (g : ℕ) : List ℕ → ℕ
  | [] => 0
  | a :: rest => (if a = g then 1 else 0) + countOcc g rest

lemma countOcc_append (g : ℕ) (l1 l2 : List ℕ) :
    countOcc g (l1 ++ l2) = countOcc g l1 + countOcc g l2 := by
  induction l1 with
  | nil => simp [countOcc]
  | cons a rest ih => simp [countOcc, ih]; omega

lemma countOcc_eq_zero {g : ℕ} {l : List ℕ} (h : ∀ a ∈ l, a ≠ g) :
    countOcc g l = 0 := by
  induction l with
  | nil => rfl
  | cons a rest ih =>
      have ha := h a (List.mem_cons_self a rest)
      simp [countOcc, ha, ih (fun b hb => h b (List.mem_cons_of_mem _ hb))]

lemma countOcc_eq_length {g : ℕ} {l : List ℕ} (h : ∀ a ∈ l, a = g) :
    countOcc g l = l.length := by
  induction l with
  | nil => rfl
  | cons a rest ih =>
      have ha := h a (List.mem_cons_self a rest)
      simp [countOcc, ha, ih (fun b hb => h b (List.mem_cons_of_mem _ hb))]
      omega

lemma countOcc_disposeLog (g : ℕ) (l : List HitRegion) :
    countOcc g (disposeLog l)
      = countOcc g (l.map HitRegion.geomId) + countOcc g (l.map HitRegion.matId) := by
  induction l with
  | nil => rfl
  | cons h rest ih => simp [disposeLog, countOcc, ih]; omega

/-- Row-major enumeration of the `m × n` grid indices is `range (m * n)`. -/
lemma range_flatMap_rowMajor (m n : ℕ) :
    (List.range m).flatMap (fun a => (List.range n).map (fun b => a * n + b))
      = List.range (m * n) := by
  induction m with
  | zero => simp
  | succ m ih =>
      rw [List.range_succ, List.flatMap_append, ih, Nat.succ_mul, List.range_add]
      simp [Nat.add_comm]

lemma geomIds_eq (cfg : Config) :
    (hitRegions cfg).map HitRegion.geomId
      = (List.range ((cfg.shelves + 1) * (cfg.divisions + 1))).map (· + 1) := by
  rw [← range_flatMap_rowMajor (cfg.shelves + 1) (cfg.divisions + 1), hitRegions]
  rw [List.map_flatMap, List.map_flatMap]
  simp only [List.map_map]
  rfl

lemma countOcc_map_succ_range {N k : ℕ} (h : k < N) :
    countOcc (k + 1) ((List.range N).map (· + 1)) = 1 := by
  induction N with
  | zero => omega
  | succ N ih =>
      rw [List.range_succ, List.map_append, countOcc_append]
      by_cases hk : k < N
      · rw [ih hk]
        have : countOcc (k + 1) ([N].map (· + 1)) = 0 :=
          countOcc_eq_zero (by intro a ha; simp at ha; omega)
        rw [this]
      · have hkN : k = N := by omega
        subst hkN
        have h0 : countOcc (k + 1) ((List.range k).map (· + 1)) = 0 := by
          apply countOcc_eq_zero
          intro a ha
          rcases List.mem_map.mp ha with ⟨b, hb, rfl⟩
          have := List.mem_range.mp hb
          omega
        rw [h0]
        simp [countOcc]

lemma hitRegions_matId_zero (cfg : Config) :
    ∀ hr ∈ hitRegions cfg, hr.matId = 0 := by
  intro hr hmem
  rcases hitRegions_mem cfg hmem with ⟨r, c, _, _, rfl⟩
  rfl

/-- C7 amended. During teardown of the hit-region (compartments) subtree,
every per-mesh geometry buffer is disposed exactly once, but the single
`compartmentMaterial` shared by all compartment meshes is disposed once
per mesh — `(shelves+1) × (divisions+1)` times, which exceeds once on
every grid with more than one compartment. -/
theorem teardown_dispose_amended (cfg : Config) :
    (∀ hr ∈ hitRegions cfg,
      countOcc hr.geomId (disposeLog (hitRegions cfg)) = 1) ∧
    countOcc sharedCompartmentMatId (disposeLog (hitRegions cfg))
      = (cfg.shelves + 1) * (cfg.divisions + 1) := by
  constructor
  · intro hr hmem
    rcases hitRegions_mem cfg hmem with ⟨r, c, hrle, hcle, rfl⟩
    rw [countOcc_disposeLog]
    have hmat : countOcc (hitRegionFor cfg r c).geomId
        ((hitRegions cfg).map HitRegion.matId) = 0 := by
      apply countOcc_eq_zero
      intro a ha
      rcases List.mem_map.mp ha with ⟨hr2, hmem2, rfl⟩
      rw [hitRegions_matId_zero cfg hr2 hmem2]
      show 0 ≠ r * (cfg.divisions + 1) + c + 1
      omega
    rw [hmat, Nat.add_zero, geomIds_eq]
    show countOcc (r * (cfg.divisions + 1) + c + 1) _ = 1
    apply countOcc_map_succ_range
    calc r * (cfg.divisions + 1) + c
        < r * (cfg.divisions + 1) + (cfg.divisions + 1) := by omega
      _ = (r + 1) * (cfg.divisions + 1) := by ring
      _ ≤ (cfg.shelves + 1) * (cfg.divisions + 1) :=
          Nat.mul_le_mul_right _ (by omega)
  · rw [countOcc_disposeLog]
    have hgeom : countOcc sharedCompartmentMatId
        ((hitRegions cfg).map HitRegion.geomId) = 0 := by
      rw [geomIds_eq]
      apply countOcc_eq_zero
      intro a ha
      rcases List.mem_map.mp ha with ⟨b, _, rfl⟩
      simp [sharedCompartmentMatId]
    have hmat : countOcc sharedCompartmentMatId
        ((hitRegions cfg).map HitRegion.matId)
        = ((hitRegions cfg).map HitRegion.matId).length := by
      apply countOcc_eq_length
      intro a ha
      rcases List.mem_map.mp ha with ⟨hr2, hmem2, rfl⟩
      exact hitRegions_matId_zero cfg hr2 hmem2
    rw [hgeom, hmat, Nat.zero_add, List.length_map, hitRegions_length]

/-- A 2-compartment configuration (shelves = 1, divisions = 0). -/
def twoCellConfig : Config :=
  { width := 1, height := 1, depth := 2/5,
    shelves := 1, divisions := 0, thickness := 1/25, drawers := [] }

/-- C7 counterexample. With two compartments, both hit-region meshes hold
the one shared `compartmentMaterial`; the teardown loop disposes that
material once per mesh, i.e. twice — not "exactly once" as claimed. -/
theorem shared_material_disposed_twice :
    (hitRegions twoCellConfig).map HitRegion.matId
        = [sharedCompartmentMatId, sharedCompartmentMatId] ∧
    countOcc sharedCompartmentMatId (disposeLog (hitRegions twoCellConfig)) = 2 :=
  ⟨rfl, rfl⟩

/-- Witness for `teardown_dispose_amended` at `twoCellConfig`: the first
compartment's geometry is disposed exactly once. -/
theorem teardown_dispose_amended_witness :
    hitRegionFor twoCellConfig 0 0 ∈ hitRegions twoCellConfig ∧
    countOcc (hitRegionFor twoCellConfig 0 0).geomId
      (disposeLog (hitRegions twoCellConfig)) = 1 :=
  ⟨by
      simp only [hitRegions, List.mem_flatMap, List.mem_map, List.mem_range]
      exact ⟨0, by omega, 0, by omega, rfl⟩,
    (teardown_dispose_amended twoCellConfig).1 _
      (by
        simp only [hitRegions, List.mem_flatMap, List.mem_map, List.mem_range]
        exact ⟨0, by omega, 0, by omega, rfl⟩)⟩

/-! ## Layout positions (claim C8) -/

/-- The y-centres of the `shelves + 2` horizontal panels `createBookcase`
emits, bottom to top: the bottom panel at `thickness/2` (line 655), the
interior shelves at `thickness + spacing*i` for `i = 1..shelves`
(lines 671-678), the top panel at `height - thickness/2` (line 656). The
bottom panel's lower face sits at `0` and the top panel's upper face at
`height` — the outer bounds of the bookcase. -/
def panelPositions (cfg : Config) : List ℚ :=
  cfg.thickness / 2 ::
    (List.range cfg.shelves).map
      (fun i : ℕ => cfg.thickness + compartmentHeight cfg * ((i : ℚ) + 1))
    ++ [cfg.height - cfg.thickness / 2]

/-- The x-centres of the `divisions + 2` vertical panels, left to right:
the left side at `-width/2 + thickness/2` (line 657), the interior
divisions at `-width/2 + thickness + spacing*i` for `i = 1..divisions`
(lines 681-688), the right side at `width/2 - thickness/2` (line 658).
The outermost faces sit at `±width/2`. -/
def dividerPositions (cfg : Config) : List ℚ :=
  (-cfg.width / 2 + cfg.thickness / 2) ::
    (List.range cfg.divisions).map
      (fun i : ℕ => -cfg.width / 2 + cfg.thickness + compartmentWidth cfg * ((i : ℚ) + 1))
    ++ [cfg.width / 2 - cfg.thickness / 2]

/-- An evenly spaced interior sequence bracketed by two outer positions is
strictly increasing. -/
lemma pairwise_lt_bracketed (a c s b : ℚ) (n : ℕ) (hs : 0 < s)
    (hab : a < b) (ha : a < c + s) (hb : c + s * (n : ℚ) < b) :
    (a :: (List.range n).map (fun i : ℕ => c + s * ((i : ℚ) + 1)) ++ [b]).Pairwise
      (· < ·) := by
  have hmem_lt : ∀ x ∈ (List.range n).map (fun i : ℕ => c + s * ((i : ℚ) + 1)),
      a < x ∧ x < b := by
    intro x hx
    rcases List.mem_map.mp hx with ⟨i, hi, rfl⟩
    have hin : i < n := List.mem_range.mp hi
    have h1 : (1 : ℚ) ≤ (i : ℚ) + 1 := by
      have : (0 : ℚ) ≤ (i : ℚ) := Nat.cast_nonneg i
      linarith
    have h2 : (i : ℚ) + 1 ≤ (n : ℚ) := by
      have : ((i + 1 : ℕ) : ℚ) ≤ ((n : ℕ) : ℚ) := Nat.cast_le.mpr hin
      push_cast at this
      linarith
    have hx1 : s * 1 ≤ s * ((i : ℚ) + 1) := by
      apply mul_le_mul_of_nonneg_left h1 hs.le
    have hx2 : s * ((i : ℚ) + 1) ≤ s * (n : ℚ) := by
      apply mul_le_mul_of_nonneg_left h2 hs.le
    constructor
    · calc a < c + s := ha
        _ = c + s * 1 := by ring
        _ ≤ c + s * ((i : ℚ) + 1) := by linarith
    · calc c + s * ((i : ℚ) + 1) ≤ c + s * (n : ℚ) := by linarith
        _ < b := hb
  rw [List.cons_append, List.pairwise_cons]
  constructor
  · intro x hx
    rcases List.mem_append.mp hx with hx | hx
    · exact (hmem_lt x hx).1
    · rcases List.mem_singleton.mp hx with rfl
      exact hab
  · rw [List.pairwise_append]
    refine ⟨?_, List.pairwise_singleton _ _, ?_⟩
    · rw [List.pairwise_map]
      apply (List.pairwise_lt_range n).imp
      intro i j hij
      have : (i : ℚ) < (j : ℚ) := by exact_mod_cast hij
      nlinarith
    · intro x hx y hy
      rcases List.mem_singleton.mp hy with rfl
      exact (hmem_lt x hx).2

lemma compartmentHeight_pos (cfg : Config) (ht : 0 < cfg.thickness)
    (hh : 2 * cfg.thickness < cfg.height) : 0 < compartmentHeight cfg := by
  apply div_pos
  · linarith
  · positivity

lemma compartmentWidth_pos (cfg : Config) (ht : 0 < cfg.thickness)
    (hw : 2 * cfg.thickness < cfg.width) : 0 < compartmentWidth cfg := by
  apply div_pos
  · linarith
  · positivity

lemma compartmentHeight_mul (cfg : Config) :
    compartmentHeight cfg * ((cfg.shelves : ℚ) + 1)
      = cfg.height - cfg.thickness * 2 := by
  rw [compartmentHeight]
  apply div_mul_cancel₀
  positivity

lemma compartmentWidth_mul (cfg : Config) :
    compartmentWidth cfg * ((cfg.divisions : ℚ) + 1)
      = cfg.width - cfg.thickness * 2 := by
  rw [compartmentWidth]
  apply div_mul_cancel₀
  positivity

/-- C8. For every valid configuration the layout has `shelves + 2`
horizontal panel positions and `divisions + 2` vertical divider positions,
each sequence strictly increasing, with the first and last entries the
centres of the outermost panels (flush with the bookcase's outer bounds:
bottom face 0 / top face `height`, left face `-width/2` / right face
`width/2`). -/
theorem layout_positions (cfg : Config)
    (ht : 0 < cfg.thickness) (hd : 0 < cfg.depth)
    (hwp : 0 < cfg.width) (hhp : 0 < cfg.height)
    (hw : 2 * cfg.thickness < cfg.width) (hh : 2 * cfg.thickness < cfg.height) :
    (panelPositions cfg).length = cfg.shelves + 2 ∧
    (panelPositions cfg).Pairwise (· < ·) ∧
    (panelPositions cfg).head? = some (cfg.thickness / 2) ∧
    (panelPositions cfg).getLast? = some (cfg.height - cfg.thickness / 2) ∧
    (dividerPositions cfg).length = cfg.divisions + 2 ∧
    (dividerPositions cfg).Pairwise (· < ·) ∧
    (dividerPositions cfg).head? = some (-cfg.width / 2 + cfg.thickness / 2) ∧
    (dividerPositions cfg).getLast? = some (cfg.width / 2 - cfg.thickness / 2) := by
  have hsp := compartmentHeight_pos cfg ht hh
  have hwp' := compartmentWidth_pos cfg ht hw
  have hsm := compartmentHeight_mul cfg
  have hwm := compartmentWidth_mul cfg
  refine ⟨?_, ?_, rfl, ?_, ?_, ?_, rfl, ?_⟩
  · simp [panelPositions]
  · apply pairwise_lt_bracketed
    · exact hsp
    · linarith
    · linarith
    · have : compartmentHeight cfg * (cfg.shelves : ℚ)
          = cfg.height - cfg.thickness * 2 - compartmentHeight cfg := by
        have : compartmentHeight cfg * ((cfg.shelves : ℚ) + 1)
            = compartmentHeight cfg * (cfg.shelves : ℚ) + compartmentHeight cfg := by
          ring
        linarith [hsm]
      linarith
  · rw [panelPositions, List.getLast?_concat]
  · simp [dividerPositions]
  · apply pairwise_lt_bracketed
    · exact hwp'
    · linarith
    · linarith
    · have : compartmentWidth cfg * (cfg.divisions : ℚ)
          = cfg.width - cfg.thickness * 2 - compartmentWidth cfg := by
        have : compartmentWidth cfg * ((cfg.divisions : ℚ) + 1)
            = compartmentWidth cfg * (cfg.divisions : ℚ) + compartmentWidth cfg := by
          ring
        linarith [hwm]
      linarith
  · rw [dividerPositions, List.getLast?_concat]

/-- Witness for `layout_positions` at the default configuration. -/
theorem layout_positions_witness :
    ((0 : ℚ) < defaultConfig.thickness ∧ (0 : ℚ) < defaultConfig.depth ∧
      (0 : ℚ) < defaultConfig.width ∧ (0 : ℚ) < defaultConfig.height ∧
      2 * defaultConfig.thickness < defaultConfig.width ∧
      2 * defaultConfig.thickness < defaultConfig.height) ∧
    (panelPositions defaultConfig).length = defaultConfig.shelves + 2 :=
  ⟨⟨by norm_num [defaultConfig], by norm_num [defaultConfig],
    by norm_num [defaultConfig], by norm_num [defaultConfig],
    by norm_num [defaultConfig], by norm_num [defaultConfig]⟩,
    (layout_positions defaultConfig (by norm_num [defaultConfig])
      (by norm_num [defaultConfig]) (by norm_num [defaultConfig])
      (by norm_num [defaultConfig]) (by norm_num [defaultConfig])
      (by norm_num [defaultConfig])).1⟩

/-! ## Degenerate shelf/division counts (claim C9) -/

/-- JS number division as used in Bookcase.tsx: a zero denominator yields
NaN (`0/0`) or ±Infinity, modelled as `none`; any other division is exact. -/
def jsDiv (a b : ℚ) : Option ℚ :=
  if b = 0 then none else some (a / b)

/-- `shelfPositions` of the standalone `Bookcase` component
(Bookcase.tsx lines 26-30): `y = (i / shelves) * height - height / 2` for
`i = 0..shelves`. Note the denominator is `shelves`, not `shelves + 1`. -/
def shelfPositionsTsx (cfg : Config) : List (Option ℚ) :=
  (List.range (cfg.shelves + 1)).map (fun i : ℕ =>
    (jsDiv (i : ℚ) (cfg.shelves : ℚ)).map
      (fun q => q * cfg.height - cfg.height / 2))

/-- `divisionPositions` of the standalone `Bookcase` component
(Bookcase.tsx lines 33-37): `x = (i / divisions) * width - width / 2` for
`i = 0..divisions`. -/
def divisionPositionsTsx (cfg : Config) : List (Option ℚ) :=
  (List.range (cfg.divisions + 1)).map (fun i : ℕ =>
    (jsDiv (i : ℚ) (cfg.divisions : ℚ)).map
      (fun q => q * cfg.width - cfg.width / 2))

/-- The default configuration with `shelves := 0`. -/
def zeroShelvesConfig : Config :=
  { defaultConfig with shelves := 0 }

/-- C9 counterexample. For `shelves = 0` the `Bookcase` component computes
`(0 / 0) * height - height / 2`, a division by zero producing a NaN shelf
coordinate — the claim's "never divides by zero and produces no NaN
coordinates" fails on this cited code path. -/
theorem shelf_position_nan_at_zero_shelves :
    zeroShelvesConfig.shelves = 0 ∧
      shelfPositionsTsx zeroShelvesConfig = [none] := by
  constructor
  · rfl
  · rfl

/-- C9 amended. The live geometry path (`createBookcase`) is safe: its
denominators `shelves + 1` and `divisions + 1` are never zero, and with
`shelves = 0` (resp. `divisions = 0`) the hit-region grid still has
exactly one compartment row (resp. column); but the standalone `Bookcase`
component divides by `shelves` (resp. `divisions`) itself, which for a
zero count is a division by zero yielding a NaN coordinate. -/
theorem degenerate_grid_amended (cfg : Config) :
    ((cfg.shelves : ℚ) + 1 ≠ 0) ∧ ((cfg.divisions : ℚ) + 1 ≠ 0) ∧
    (cfg.shelves = 0 →
      (hitRegions cfg).length = cfg.divisions + 1 ∧
      ∀ hr ∈ hitRegions cfg, hr.row = 0) ∧
    (cfg.divisions = 0 →
      (hitRegions cfg).length = cfg.shelves + 1 ∧
      ∀ hr ∈ hitRegions cfg, hr.column = 0) ∧
    (cfg.shelves = 0 → none ∈ shelfPositionsTsx cfg) := by
  refine ⟨by positivity, by positivity, ?_, ?_, ?_⟩
  · intro h
    refine ⟨by rw [hitRegions_length, h, Nat.zero_add, Nat.one_mul], ?_⟩
    intro hr hmem
    rcases hitRegions_mem cfg hmem with ⟨r, c, hrle, _, rfl⟩
    show r = 0
    omega
  · intro h
    refine ⟨by rw [hitRegions_length, h, Nat.zero_add, Nat.mul_one], ?_⟩
    intro hr hmem
    rcases hitRegions_mem cfg hmem with ⟨r, c, _, hcle, rfl⟩
    show c = 0
    omega
  · intro h
    rw [shelfPositionsTsx, h]
    simp [jsDiv]

/-- Witness for `degenerate_grid_amended` at the zero-shelves
configuration. -/
theorem degenerate_grid_amended_witness :
    zeroShelvesConfig.shelves = 0 ∧
    (hitRegions zeroShelvesConfig).length = zeroShelvesConfig.divisions + 1 :=
  ⟨rfl, ((degenerate_grid_amended zeroShelvesConfig).2.2.1 rfl).1⟩

/-! ## The ConfigPanel compartment grid (claim C10) -/

/-- `drawer.type === 'solid' ? 'glass' : 'solid'` (ConfigPanel.tsx
line 44). -/
def toggleType : DrawerType → DrawerType
  | DrawerType.solid => DrawerType.glass
  | DrawerType.glass => DrawerType.solid

/-- `toggleDrawerType` (ConfigPanel.tsx lines 42-47):
`drawers.map((drawer, i) => i === index ? { ...drawer, type: toggled } :
drawer)` — flip the type at one index, keep row/column, keep the rest. -/
def toggleTypeAt : List Drawer → ℕ → List Drawer
  | [], _ => []
  | d :: rest, 0 => ⟨d.row, d.column, toggleType d.type⟩ :: rest
  | d :: rest, n + 1 => d :: toggleTypeAt rest n

/-- A grid-cell click in the ConfigPanel (ConfigPanel.tsx lines 198-206):
if `findIndex` locates a drawer at the cell, toggle its type; otherwise
add a solid drawer. -/
def panelCellClick (drawers : List Drawer) (row col : ℕ) : List Drawer :=
  match findDrawer drawers row col with
  | some i => toggleTypeAt drawers i
  | none => drawers ++ [⟨row, col, DrawerType.solid⟩]

/-- `removeDrawer` (ConfigPanel.tsx lines 37-40):
`drawers.filter((_, i) => i !== index)` — the cell's separate remove
button. -/
def removeDrawer (drawers : List Drawer) (i : ℕ) : List Drawer :=
  removeAt drawers i

lemma toggleType_toggleType (t : DrawerType) : toggleType (toggleType t) = t := by
  cases t <;> rfl

lemma toggleTypeAt_length (L : List Drawer) (i : ℕ) :
    (toggleTypeAt L i).length = L.length := by
  induction L generalizing i with
  | nil => rfl
  | cons d rest ih =>
      cases i with
      | zero => rfl
      | succ n => simp [toggleTypeAt, ih]

lemma toggleTypeAt_toggleTypeAt (L : List Drawer) (i : ℕ) :
    toggleTypeAt (toggleTypeAt L i) i = L := by
  induction L generalizing i with
  | nil => rfl
  | cons d rest ih =>
      cases i with
      | zero => simp [toggleTypeAt, toggleType_toggleType]
      | succ n => simp [toggleTypeAt, ih]

lemma findDrawer_toggleTypeAt (L : List Drawer) (i r c : ℕ) :
    findDrawer (toggleTypeAt L i) r c = findDrawer L r c := by
  induction L generalizing i with
  | nil => rfl
  | cons d rest ih =>
      cases i with
      | zero =>
          show findDrawer (⟨d.row, d.column, toggleType d.type⟩ :: rest) r c = _
          rw [findDrawer, findDrawer]
          simp [drawerMatches]
      | succ n =>
          show findDrawer (d :: toggleTypeAt rest n) r c = _
          rw [findDrawer, findDrawer, ih]

lemma toggleTypeAt_getElem? (L : List Drawer) (i : ℕ) (d : Drawer)
    (h : L[i]? = some d) :
    (toggleTypeAt L i)[i]? = some ⟨d.row, d.column, toggleType d.type⟩ := by
  induction L generalizing i with
  | nil => simp at h
  | cons hd rest ih =>
      cases i with
      | zero =>
          rw [List.getElem?_cons_zero, Option.some_inj] at h
          subst h
          show ((⟨hd.row, hd.column, toggleType hd.type⟩ : Drawer) :: rest)[0]? = _
          rw [List.getElem?_cons_zero]
      | succ n =>
          rw [List.getElem?_cons_succ] at h
          show (hd :: toggleTypeAt rest n)[n + 1]? = _
          rw [List.getElem?_cons_succ]
          exact ih n h

lemma removeAt_length (L : List Drawer) (i : ℕ) (h : i < L.length) :
    (removeAt L i).length + 1 = L.length := by
  induction L generalizing i with
  | nil => simp at h
  | cons d rest ih =>
      cases i with
      | zero => rfl
      | succ n =>
          simp at h
          simp [removeAt]
          exact ih n h

/-- C10. In the ConfigPanel's 2D compartment grid, clicking a cell that
already holds a drawer toggles that drawer between solid and glass (a
second click restores the drawers array exactly) and never removes the
entry — the array length is unchanged, and in general a cell click never
shrinks the array. Removal is only possible through the cell's separate
remove button (`removeDrawer`), which does shrink it. This is a two-state
toggle, unlike the three-state viewport cycle. -/
theorem panel_two_state_toggle (L : List Drawer) (r c i : ℕ)
    (h : findDrawer L r c = some i) :
    panelCellClick L r c = toggleTypeAt L i ∧
    (panelCellClick L r c).length = L.length ∧
    panelCellClick (panelCellClick L r c) r c = L ∧
    (∀ d, L[i]? = some d →
      (panelCellClick L r c)[i]? = some ⟨d.row, d.column, toggleType d.type⟩) ∧
    (∀ M : List Drawer, ∀ r' c' : ℕ,
      M.length ≤ (panelCellClick M r' c').length) ∧
    (∀ M : List Drawer, ∀ j : ℕ, j < M.length →
      (removeDrawer M j).length + 1 = M.length) := by
  have hclick : panelCellClick L r c = toggleTypeAt L i := by
    rw [panelCellClick, h]
  refine ⟨hclick, ?_, ?_, ?_, ?_, ?_⟩
  · rw [hclick, toggleTypeAt_length]
  · rw [hclick, panelCellClick, findDrawer_toggleTypeAt, h]
    exact toggleTypeAt_toggleTypeAt L i
  · intro d hd
    rw [hclick]
    exact toggleTypeAt_getElem? L i d hd
  · intro M r' c'
    rw [panelCellClick]
    cases hM : findDrawer M r' c' with
    | some j => rw [toggleTypeAt_length]
    | none => simp
  · intro M j hj
    exact removeAt_length M j hj

/-- Witness for `panel_two_state_toggle`: a one-entry array with a solid
drawer at (0,0); two cell clicks restore it. -/
theorem panel_two_state_toggle_witness :
    findDrawer [(⟨0, 0, DrawerType.solid⟩ : Drawer)] 0 0 = some 0 ∧
    panelCellClick
      (panelCellClick [(⟨0, 0, DrawerType.solid⟩ : Drawer)] 0 0) 0 0
      = [(⟨0, 0, DrawerType.solid⟩ : Drawer)] :=
  ⟨rfl, (panel_two_state_toggle [⟨0, 0, DrawerType.solid⟩] 0 0 0 rfl).2.2.1⟩

end Bookcase
